import Mathlib

/-!
Shallow embedding of `src/downloader.py` (agartha-ai/iodp_downloader).

The script pages through a Zenodo community listing (`get_iodp_records`),
saves a projected metadata index (`save_metadata`) and mirrors each record's
files to disk (`download_file`, `download_record_data`), orchestrated by
`main`.

Modelling conventions:
  * HTTP responses to a listing request are `Except String PageResponse`:
    `Except.error` models an exception raised by `requests.get` /
    `response.json()` (the source does not wrap the listing request in a
    `try`, so such an exception propagates), `Except.ok` carries the parsed
    status code together with the `hits.hits` list and `hits.total` already
    extracted with the source's `.get(..., default)` defaults.
  * The `while True` pagination loop becomes a fuel-indexed recursion
    returning `none` exactly when the fuel runs out (never for the servers
    considered in the theorems, which is how termination is expressed).
  * The filesystem is a map from path strings to optional byte lists; the
    remote file store is a map from URLs to `Except String Content`, where
    `Except.error` models the exceptions caught by the `try` in
    `download_file`.
  * Field accesses done with `.get` in Python become `Option` reads with the
    same defaults; counts of `requests.get` calls are threaded explicitly.
-/

set_option maxHeartbeats 1000000

namespace IodpDownloader

/-- A file attachment of a record: `key` (filename), the `links.self`
download URL, and the reported `size` (`none` when the JSON lacks the key;
the source reads it with `file_info.get('size', 0)`). -/
structure FileInfo where
  key : String
  link : String
  size : Option Nat
  deriving DecidableEq

/-- The `metadata` sub-dictionary of a record, with the fields the script
reads; absent keys are `none` (the source uses `.get`). -/
structure RecordMetadata where
  title : Option String
  description : Option String
  creators : List String
  publication_date : Option String
  deriving DecidableEq

/-- A Zenodo record as the script consumes it: `id`, `metadata`, a top-level
`doi`, and the attached files (`record.get('files', [])`). -/
structure Record where
  id : Nat
  metadata : RecordMetadata
  doi : Option String
  files : List FileInfo
  deriving DecidableEq

/-- A parsed listing page: the HTTP status code, the `hits.hits` record list
and the `hits.total` count (defaults already applied as in
`data.get('hits', {}).get('hits', [])` / `.get('total', 0)`). -/
structure PageResponse where
  status : Nat
  hits : List Record
  total : Nat
  deriving DecidableEq

/-- The pagination loop of `get_iodp_records` (src/downloader.py lines
49-85).  `server page size` is one listing request; an `Except.error` from it
models a raised exception, which the source does not catch, so it propagates
as `some (Except.error e)`.  `none` means the fuel ran out. -/
def getRecordsLoop (debug : Bool) (size : Nat)
    (server : Nat → Nat → Except String PageResponse) :
    Nat → Nat → List Record → Option (Except String (List Record))
  | 0, _, _ => none
  | fuel + 1, page, acc =>
    match server page size with
    | Except.error e => some (Except.error e)
    | Except.ok resp =>
      if resp.status ≠ 200 then some (Except.ok acc)
      else if resp.hits.isEmpty then some (Except.ok acc)
      else
        let acc2 := acc ++ resp.hits
        if debug = true ∧ 2 ≤ acc2.length then some (Except.ok (acc2.take 2))
        else if resp.total ≤ acc2.length then some (Except.ok acc2)
        else getRecordsLoop debug size server fuel (page + 1) acc2

/-- Entry point of the record enumerator (src/downloader.py lines 38-88):
page size 2 in debug mode, 50 otherwise, starting from page 1 with an empty
accumulator. -/
def get_iodp_records (debug : Bool)
    (server : Nat → Nat → Except String PageResponse) (fuel : Nat) :
    Option (Except String (List Record)) :=
  getRecordsLoop debug (if debug then 2 else 50) server fuel 1 []

/-- A well-behaved remote listing holding the fixed record sequence `R`:
page `p` of size `s` is the corresponding slice of `R`, the reported total is
`R.length`, every response has status 200 and no request raises. -/
def honestServer (R : List Record) : Nat → Nat → Except String PageResponse :=
  fun page size => Except.ok ⟨200, (R.drop ((page - 1) * size)).take size, R.length⟩

/-- A server that serves honest slices of `R` (reporting `total`) on pages
`1..k` and answers status 500 from page `k+1` on. -/
def failAfter (R : List Record) (total k : Nat) :
    Nat → Nat → Except String PageResponse :=
  fun page size =>
    if page ≤ k then Except.ok ⟨200, (R.drop ((page - 1) * size)).take size, total⟩
    else Except.ok ⟨500, [], total⟩

/-- A server whose every listing request raises (models a network error or a
body that `response.json()` cannot parse). -/
def raisingServer : Nat → Nat → Except String PageResponse :=
  fun _ _ => Except.error "ConnectionError"

/-- A server with no records at all: one honest empty page. -/
def emptyServer : Nat → Nat → Except String PageResponse :=
  fun _ _ => Except.ok ⟨200, [], 0⟩

/-- Whether an enumeration outcome is a propagated (uncaught) exception. -/
def enumRaises : Option (Except String (List Record)) → Bool
  | some (Except.error _) => true
  | _ => false

/-- Records with distinct ids and no files, used as concrete listings. -/
def mkRecs (n : Nat) : List Record :=
  (List.range n).map fun i => ⟨i, ⟨none, none, [], none⟩, none, []⟩

/-- File entries with distinct names, used as concrete file lists. -/
def mkFiles (n : Nat) : List FileInfo :=
  (List.range n).map fun i => ⟨toString i, toString i, none⟩

/-- The per-record file truncation applied by `download_record_data`
(src/downloader.py lines 136-139): in debug mode a record's file list is cut
to its first two entries. -/
def filesForRecord (debug : Bool) (files : List FileInfo) : List FileInfo :=
  if debug = true ∧ 2 < files.length then files.take 2 else files

/-- File contents, as the list of downloaded bytes. -/
abbrev Content := List Nat

/-- The local filesystem: a map from path strings to the contents of the
file stored there, `none` when no file exists at that path. -/
abbrev FS := String → Option Content

/-- Characters kept by the title sanitizer (src/downloader.py line 101):
`c.isalnum() or c in (' ', '-', '_')`. -/
def allowedChar (c : Char) : Bool :=
  c.isAlphanum || c = ' ' || c = '-' || c = '_'

/-- Python's `str.rstrip()` on a character list: remove trailing
whitespace. -/
def rstripChars (l : List Char) : List Char :=
  (l.reverse.dropWhile Char.isWhitespace).reverse

/-- The `safe_title` computed at src/downloader.py line 101: keep only
allowed characters, then strip trailing whitespace. -/
def safeTitle (title : String) : String :=
  String.mk (rstripChars (title.toList.filter allowedChar))

/-- The directory-name component actually used, `safe_title[:100]`
(src/downloader.py line 102). -/
def titleDirName (title : String) : String :=
  String.mk ((safeTitle title).toList.take 100)

/-- Modelled from the spec: the spec describes the sanitized directory name
as produced by stripping every disallowed character and then truncating to
100 characters, with no intermediate `rstrip`.  Kept as a separate
definition to compare with `titleDirName`, which embeds the source. -/
def specTitleDirName (title : String) : String :=
  String.mk ((title.toList.filter allowedChar).take 100)

/-- The target path of a file (src/downloader.py lines 97-105):
`data/record_<id>/<safe_title[:100]>/<filename>`. -/
def mkPath (rid : Nat) (title : String) (filename : String) : String :=
  "data/record_" ++ toString rid ++ "/" ++ titleDirName title ++ "/" ++ filename

/-- The skip test of src/downloader.py line 108:
`file_path.exists() and file_path.stat().st_size == file_size`. -/
def existsWithSize (fs : FS) (path : String) (fsize : Nat) : Bool :=
  match fs path with
  | some c => c.length = fsize
  | none => false

/-- Outcome of one `download_file` call: the returned boolean, the
filesystem afterwards, and how many network requests were made. -/
structure DlResult where
  ok : Bool
  fs : FS
  requests : Nat

/-- One file-mirror step (src/downloader.py lines 90-128), restricted to
remotes that only fail before the output file is opened.  `remote` maps a
download URL to the streamed content, `Except.error` standing for an
exception raised before `open(file_path, 'wb')` runs (connection failure, or
a non-2xx status via `raise_for_status`), which the `try` block catches: the
local file is untouched and `False` is returned.  The source's remaining
failure mode — an exception raised mid-stream, after `open` has truncated
the target — is modelled by `download_file_stream` below;
`download_file_stream_restricts` proves this definition is its
early-failures-only restriction. -/
def download_file (remote : String → Except String Content) (fs : FS)
    (fi : FileInfo) (rid : Nat) (title : String) : DlResult :=
  let fsize := fi.size.getD 0
  let path := mkPath rid title fi.key
  if existsWithSize fs path fsize then ⟨true, fs, 0⟩
  else
    match remote fi.link with
    | Except.ok c => ⟨true, fun p => if p = path then some c else fs p, 1⟩
    | Except.error _ => ⟨false, fs, 1⟩

/-- Every way the download attempt of src/downloader.py lines 114-121 can
go: the whole body is streamed (`full`); an exception is raised before the
output file is opened — by `requests.get` or by `raise_for_status` — leaving
the target untouched (`early`); or an exception is raised by the
`iter_content` streaming loop after `open(file_path, 'wb')` has truncated
the target, leaving the chunks already written (`midStream`). -/
inductive FetchResult where
  | full (c : Content)
  | early (e : String)
  | midStream (written : Content) (e : String)
  deriving DecidableEq

/-- One file-mirror step with the full failure behaviour of the source's
`try` block (src/downloader.py lines 90-128): a mid-stream exception is
caught and converted to `False` like any other, but the target path is left
holding the bytes written before the exception. -/
def download_file_stream (remote : String → FetchResult) (fs : FS)
    (fi : FileInfo) (rid : Nat) (title : String) : DlResult :=
  let fsize := fi.size.getD 0
  let path := mkPath rid title fi.key
  if existsWithSize fs path fsize then ⟨true, fs, 0⟩
  else
    match remote fi.link with
    | FetchResult.full c =>
      ⟨true, fun p => if p = path then some c else fs p, 1⟩
    | FetchResult.early _ => ⟨false, fs, 1⟩
    | FetchResult.midStream w _ =>
      ⟨false, fun p => if p = path then some w else fs p, 1⟩

/-- View an early-failures-only remote as a streaming remote. -/
def fetchOfExcept (remote : String → Except String Content) :
    String → FetchResult :=
  fun l =>
    match remote l with
    | Except.ok c => FetchResult.full c
    | Except.error e => FetchResult.early e

/-- A remote on which every download raises before the output file is
opened. -/
def remoteEarly : String → FetchResult :=
  fun _ => FetchResult.early "ConnectionError"

/-- A remote on which every download raises mid-stream after one 1-byte
chunk has been written. -/
def remoteMid : String → FetchResult :=
  fun _ => FetchResult.midStream [7] "ChunkedEncodingError"

/-- Running state of a record's mirror pass: `cnt` is `success_count`, `fs`
the filesystem, `req` the number of network requests made so far. -/
structure MState where
  cnt : Nat
  fs : FS
  req : Nat

/-- The per-record download loop of `download_record_data`
(src/downloader.py lines 149-152), threading the filesystem and counting
successes and requests. -/
def mirrorFiles (remote : String → Except String Content) (rid : Nat)
    (title : String) : List FileInfo → MState → MState
  | [], st => st
  | fi :: rest, st =>
    let r := download_file remote st.fs fi rid title
    mirrorFiles remote rid title rest
      ⟨st.cnt + (if r.ok then 1 else 0), r.fs, st.req + r.requests⟩

/-- The file mirror step for one record (src/downloader.py lines 130-154):
truncate the file list in debug mode, then download each file in order.  The
directory title is `record['metadata'].get('title', 'Unknown Title')`. -/
def download_record_data (remote : String → Except String Content) (fs : FS)
    (rec : Record) (debug : Bool) : MState :=
  mirrorFiles remote rec.id (rec.metadata.title.getD "Unknown Title")
    (filesForRecord debug rec.files) ⟨0, fs, 0⟩

/-- One entry of the metadata index: a `{filename, size}` pair (the download
URL is not part of this type). -/
structure FileMeta where
  key : String
  size : Nat
  deriving DecidableEq

/-- One projected record of the metadata index, with exactly the fields
`save_metadata` extracts (src/downloader.py lines 162-172). -/
structure RecordMeta where
  id : Nat
  title : Option String
  description : Option String
  creators : List String
  publication_date : Option String
  doi : Option String
  files : List FileMeta
  deriving DecidableEq

/-- The projection applied to each record by `save_metadata`. -/
def projectRecord (r : Record) : RecordMeta :=
  ⟨r.id, r.metadata.title, r.metadata.description, r.metadata.creators,
   r.metadata.publication_date, r.doi,
   r.files.map fun f => ⟨f.key, f.size.getD 0⟩⟩

/-- The fixed location of the metadata index. -/
def metadataPath : String := "data/iodp_metadata.json"

/-- The metadata exporter (src/downloader.py lines 156-177): the store maps
paths to the JSON document written there; the index file is opened with mode
`'w'`, so whatever was there before is replaced. -/
def save_metadata (records : List Record)
    (store : String → Option (List RecordMeta)) :
    String → Option (List RecordMeta) :=
  fun p => if p = metadataPath then some (records.map projectRecord) else store p

/-- Replace every file's download URL in a record, leaving all other fields
alone; used to state that the exported metadata omits download URLs. -/
def setLinks (g : String → String) (r : Record) : Record :=
  ⟨r.id, r.metadata, r.doi, r.files.map fun f => ⟨f.key, g f.link, f.size⟩⟩

/-- How one run of the script ends. -/
inductive RunOutcome where
  | fatalKey
  | noRecords
  | completed (nrec : Nat)
  | crashed (e : String)
  | outOfFuel
  deriving DecidableEq

/-- The process exit code of each outcome: `sys.exit(1)` for the missing
key, exit code 1 for an uncaught exception, and 0 otherwise (the
zero-records branch is a plain `return` from `main`, and the success path
falls through). -/
def exitCodeOf : RunOutcome → Nat
  | RunOutcome.fatalKey => 1
  | RunOutcome.crashed _ => 1
  | _ => 0

/-- Whether the outcome reached the mirroring loop. -/
def ranMirror : RunOutcome → Bool
  | RunOutcome.completed _ => true
  | _ => false

/-- Python truthiness of the key check at src/downloader.py line 26:
`if not ZENODO_API_KEY` fires when the variable is unset or empty. -/
def keyMissing (key : Option String) : Bool := key.getD "" = ""

/-- The orchestrator (src/downloader.py lines 25-29 and 179-215): the
module-level key check exits with code 1 before any network activity; `main`
enumerates, returns early when no records were found, and otherwise saves
the metadata and mirrors every record. -/
def runScript (key : Option String)
    (server : Nat → Nat → Except String PageResponse) (fuel : Nat)
    (debug : Bool) : RunOutcome :=
  if keyMissing key then RunOutcome.fatalKey
  else
    match get_iodp_records debug server fuel with
    | none => RunOutcome.outOfFuel
    | some (Except.error e) => RunOutcome.crashed e
    | some (Except.ok records) =>
      if records.isEmpty then RunOutcome.noRecords
      else RunOutcome.completed records.length

/-- Concrete record used in the C2 counterexample: one file whose reported
size is 1 byte. -/
def recOneFile : Record :=
  ⟨1, ⟨some "T", none, [], none⟩, none, [⟨"a.txt", "urlA", some 1⟩]⟩

/-- A remote that delivers an empty body for every URL (0 bytes, while the
record above reports 1 byte). -/
def remoteEmptyBody : String → Except String Content := fun _ => Except.ok []

/-- An empty local filesystem. -/
def emptyFS : FS := fun _ => none

/-- Concrete record used in the C2 witness: one file of reported size 2. -/
def recSkip : Record :=
  ⟨1, ⟨some "T", none, [], none⟩, none, [⟨"a.txt", "urlA", some 2⟩]⟩

/-- A remote on which every download raises (so every consistency condition
holds vacuously). -/
def remoteDown : String → Except String Content := fun _ => Except.error "down"

/-- A filesystem already holding the 2-byte file of `recSkip` at its target
path. -/
def fsWithA : FS :=
  fun p => if p = mkPath 1 "T" "a.txt" then some [9, 9] else none

/-- Concrete file used in the C3 witness: reported size 3. -/
def fiMismatch : FileInfo := ⟨"b.txt", "urlB", some 3⟩

/-- A remote delivering a 3-byte body for every URL. -/
def remoteB : String → Except String Content := fun _ => Except.ok [1, 2, 3]

/-- A filesystem holding a 1-byte file at the target path of `fiMismatch`
(size mismatch with the reported 3 bytes). -/
def fsSmallB : FS :=
  fun p => if p = mkPath 7 "T" "b.txt" then some [1] else none

/-- Concrete file used in the C10 witness: no reported size. -/
def fiNoSize : FileInfo := ⟨"x", "urlX", none⟩

/-- A filesystem holding a zero-byte file at the target path of
`fiNoSize`. -/
def fsZeroX : FS :=
  fun p => if p = mkPath 3 "T" "x" then some [] else none

end IodpDownloader

namespace IodpDownloader

/-- Invariant of the non-debug pagination loop over an honest server: from
page `p` with the first `(p-1)*size` records already accumulated, and enough
fuel, the loop returns the whole listing. -/
theorem getRecordsLoop_honest (size : Nat) (hs : 0 < size) (R : List Record) :
    ∀ fuel p, 0 < p → 0 < fuel → R.length + 1 ≤ fuel + (p - 1) * size →
      getRecordsLoop false size (honestServer R) fuel p (R.take ((p - 1) * size)) =
        some (Except.ok R) := by
  intro fuel
  induction fuel with
  | zero => intro p _ hf _; omega
  | succ n ih =>
    intro p hp _ hfuel
    by_cases hend : R.length ≤ (p - 1) * size
    · have hdrop : R.drop ((p - 1) * size) = [] := List.drop_eq_nil_of_le hend
      have htake : R.take ((p - 1) * size) = R := List.take_of_length_le hend
      simp [getRecordsLoop, honestServer, hdrop, htake]
    · push_neg at hend
      have hmul : (p - 1) * size + size = p * size := by
        obtain ⟨q, rfl⟩ : ∃ q, p = q + 1 := ⟨p - 1, by omega⟩
        simp [Nat.succ_mul]
      have hne : ((R.drop ((p - 1) * size)).take size).isEmpty = false := by
        rw [List.isEmpty_eq_false_iff_exists_mem]
        have hlen : 0 < ((R.drop ((p - 1) * size)).take size).length := by
          rw [List.length_take, List.length_drop]
          omega
        exact List.exists_mem_of_length_pos hlen
      have hacc2 : R.take ((p - 1) * size) ++ (R.drop ((p - 1) * size)).take size =
          R.take (p * size) := by
        rw [← hmul, List.take_add]
      by_cases hfin : R.length ≤ p * size
      · have htk : R.take (p * size) = R := List.take_of_length_le hfin
        have hlen2 : (R.take (p * size)).length = R.length := by rw [htk]
        simp only [getRecordsLoop, honestServer, hne, hacc2]
        simp [hlen2, hfin, htk]
      · push_neg at hfin
        have hlen2 : (R.take (p * size)).length = p * size := by
          rw [List.length_take]
          omega
        have hrec := ih (p + 1) (by omega) (by omega)
          (by simp only [Nat.add_sub_cancel]; omega)
        simp only [Nat.add_sub_cancel] at hrec
        simp only [getRecordsLoop, honestServer, hne, hacc2]
        simp only [List.isEmpty_eq_false] at hne
        simp [hlen2, Nat.not_le.mpr hfin, hrec, hne]

/-- C1: For every page size at least 1 and every remote listing serving a
fixed record sequence `R` in slices, the pagination loop of
`get_iodp_records` terminates (within `R.length + 1` pages, via the
zero-records-page and reached-total stopping conditions baked into
`getRecordsLoop`) and returns exactly `R`: every remote record once, in
listing order. -/
theorem c1_pagination_yields_all_records (size : Nat) (R : List Record)
    (hs : 1 ≤ size) :
    getRecordsLoop false size (honestServer R) (R.length + 1) 1 [] =
      some (Except.ok R) := by
  have h := getRecordsLoop_honest size hs R (R.length + 1) 1
    (by omega) (by omega) (by omega)
  simpa using h

/-- Witness for C1 at a concrete input: page size 2 over a three-record
listing. -/
theorem c1_pagination_yields_all_records_witness :
    1 ≤ 2 ∧
      getRecordsLoop false 2 (honestServer (mkRecs 3)) ((mkRecs 3).length + 1) 1 [] =
        some (Except.ok (mkRecs 3)) :=
  ⟨by decide, c1_pagination_yields_all_records 2 (mkRecs 3) (by decide)⟩

/-- Invariant of the debug pagination loop: whatever the server answers, if
the accumulator holds at most one record, any list the loop returns holds at
most two (the source truncates with `all_records[:2]` as soon as the count
reaches 2, before the total check). -/
theorem getRecordsLoop_debug_le_two (size : Nat)
    (server : Nat → Nat → Except String PageResponse) :
    ∀ fuel page acc l, acc.length ≤ 1 →
      getRecordsLoop true size server fuel page acc = some (Except.ok l) →
      l.length ≤ 2 := by
  intro fuel
  induction fuel with
  | zero =>
    intro page acc l _ h
    simp [getRecordsLoop] at h
  | succ n ih =>
    intro page acc l hacc h
    simp only [getRecordsLoop] at h
    split at h
    · simp at h
    · rename_i resp heq
      split at h
      · simp only [Option.some.injEq, Except.ok.injEq] at h
        subst h
        omega
      · split at h
        · simp only [Option.some.injEq, Except.ok.injEq] at h
          subst h
          omega
        · split at h
          · simp only [Option.some.injEq, Except.ok.injEq] at h
            subst h
            rw [List.length_take]
            omega
          · rename_i hcond
            have h2 : ¬ 2 ≤ (acc ++ resp.hits).length := fun hx =>
              hcond ⟨by trivial, hx⟩
            split at h
            · simp only [Option.some.injEq, Except.ok.injEq] at h
              subst h
              omega
            · exact ih (page + 1) (acc ++ resp.hits) l (by omega) h

/-- C4: In debug mode the enumerator never returns more than 2 records (for
every server, every fuel), and the mirror processes exactly the first two
files of every record (its file list is truncated with `files[:2]`). -/
theorem c4_debug_caps (server : Nat → Nat → Except String PageResponse)
    (fuel : Nat) (l : List Record)
    (h : get_iodp_records true server fuel = some (Except.ok l)) :
    l.length ≤ 2 ∧
      ∀ files : List FileInfo, filesForRecord true files = files.take 2 := by
  constructor
  · exact getRecordsLoop_debug_le_two 2 server fuel 1 [] l (by simp)
      (by simpa [get_iodp_records] using h)
  · intro files
    by_cases hf : 2 < files.length
    · simp [filesForRecord, hf]
    · have hle : files.length ≤ 2 := by omega
      have ht : files.take 2 = files := List.take_of_length_le hle
      simp [filesForRecord, hf, ht]

/-- Witness for C4: a one-record listing and a three-file record. -/
theorem c4_debug_caps_witness :
    (mkRecs 1).length ≤ 2 ∧
      filesForRecord true (mkFiles 3) = (mkFiles 3).take 2 :=
  ⟨(c4_debug_caps (honestServer (mkRecs 1)) 3 (mkRecs 1) rfl).1,
   (c4_debug_caps (honestServer (mkRecs 1)) 3 (mkRecs 1) rfl).2 (mkFiles 3)⟩

/-- Over a server that serves `k` full honest pages and then fails, the
non-debug loop reaches the failing page and returns exactly the records
accumulated from the earlier pages. -/
theorem getRecordsLoop_failAfter (R : List Record) (size total k : Nat)
    (hs : 0 < size) (hk : k * size ≤ R.length) (ht : k * size < total) :
    ∀ j p, 0 < p → p + j = k + 1 →
      getRecordsLoop false size (failAfter R total k) (j + 1) p
        (R.take ((p - 1) * size)) = some (Except.ok (R.take (k * size))) := by
  intro j
  induction j with
  | zero =>
    intro p hp hpk
    have hpk' : p = k + 1 := by omega
    subst hpk'
    have hlt : ¬ (k + 1 ≤ k) := by omega
    simp [getRecordsLoop, failAfter, hlt, Nat.add_sub_cancel]
  | succ n ih =>
    intro p hp hpk
    have hple : p ≤ k := by omega
    have hmul : (p - 1) * size + size = p * size := by
      obtain ⟨q, rfl⟩ : ∃ q, p = q + 1 := ⟨p - 1, by omega⟩
      simp [Nat.succ_mul]
    have hpk2 : p * size ≤ k * size := Nat.mul_le_mul hple (le_refl size)
    have hlt : (p - 1) * size < R.length := by omega
    have hne : ((R.drop ((p - 1) * size)).take size).isEmpty = false := by
      rw [List.isEmpty_eq_false_iff_exists_mem]
      have hlen : 0 < ((R.drop ((p - 1) * size)).take size).length := by
        rw [List.length_take, List.length_drop]
        omega
      exact List.exists_mem_of_length_pos hlen
    have hacc2 : R.take ((p - 1) * size) ++ (R.drop ((p - 1) * size)).take size =
        R.take (p * size) := by
      rw [← hmul, List.take_add]
    have hlen2 : (R.take (p * size)).length = p * size := by
      rw [List.length_take]
      omega
    have hntot : ¬ (total ≤ p * size) := by omega
    have hrec := ih (p + 1) (by omega) (by omega)
    simp only [Nat.add_sub_cancel] at hrec
    obtain ⟨m, hm⟩ : ∃ m, m = n + 1 := ⟨n + 1, rfl⟩
    rw [← hm] at hrec
    rw [show n + 1 + 1 = m + 1 by rw [hm]]
    simp only [getRecordsLoop, failAfter, if_pos hple, hne, hacc2]
    simp only [List.isEmpty_eq_false] at hne
    simp [hlen2, hntot, hne, hrec]

/-- C5: When a listing page yields a non-success status after `k` earlier
successful pages (sized `size`, with more records still outstanding
according to the reported `total`), the enumerator stops, does not propagate
any exception, and returns exactly the records accumulated from the earlier
pages as a partial result. -/
theorem c5_error_returns_partial (R : List Record) (size total k : Nat)
    (hs : 0 < size) (hk : k * size ≤ R.length) (ht : k * size < total) :
    getRecordsLoop false size (failAfter R total k) (k + 1) 1 [] =
      some (Except.ok (R.take (k * size))) := by
  have h := getRecordsLoop_failAfter R size total k hs hk ht k 1 (by omega)
    (by omega)
  simpa using h

/-- The skip test holds exactly when a file with the compared byte size is
present at the path. -/
theorem existsWithSize_iff (fs : FS) (path : String) (fsize : Nat) :
    existsWithSize fs path fsize = true ↔
      ∃ c, fs path = some c ∧ c.length = fsize := by
  unfold existsWithSize
  cases h : fs path with
  | none => simp
  | some c => simp

/-- When the skip test succeeds, `download_file` returns success and touches
neither the filesystem nor the network. -/
theorem download_file_eq_skip (remote : String → Except String Content)
    (fs : FS) (fi : FileInfo) (rid : Nat) (title : String)
    (h : existsWithSize fs (mkPath rid title fi.key) (fi.size.getD 0) = true) :
    download_file remote fs fi rid title = ⟨true, fs, 0⟩ := by
  simp only [download_file]
  rw [if_pos h]

/-- A `download_file` call leaves every other path of the filesystem
unchanged. -/
theorem download_file_fs_apply_ne (remote : String → Except String Content)
    (fs : FS) (fi : FileInfo) (rid : Nat) (title : String) (p : String)
    (hp : p ≠ mkPath rid title fi.key) :
    (download_file remote fs fi rid title).fs p = fs p := by
  simp only [download_file]
  split
  · rfl
  · split
    · simp [hp]
    · rfl

/-- C3: the mirror skips a file (zero network requests) exactly when a file
of the same name with the remote-reported byte size already sits at the
target path; a skip returns success and leaves the filesystem unchanged; and
when the existing file's size differs, the mirror issues a network request
and, when the download succeeds, overwrites the path with the newly
delivered content. -/
theorem c3_skip_iff_size_matches (remote : String → Except String Content)
    (fs : FS) (fi : FileInfo) (rid : Nat) (title : String) :
    ((download_file remote fs fi rid title).requests = 0 ↔
      ∃ c, fs (mkPath rid title fi.key) = some c ∧ c.length = fi.size.getD 0) ∧
    ((download_file remote fs fi rid title).requests = 0 →
      (download_file remote fs fi rid title).ok = true ∧
        (download_file remote fs fi rid title).fs = fs) ∧
    (∀ c, fs (mkPath rid title fi.key) = some c →
      c.length ≠ fi.size.getD 0 →
      (download_file remote fs fi rid title).requests = 1 ∧
        ∀ c2, remote fi.link = Except.ok c2 →
          (download_file remote fs fi rid title).fs (mkPath rid title fi.key) =
            some c2) := by
  by_cases hx : existsWithSize fs (mkPath rid title fi.key) (fi.size.getD 0) = true
  · have hdf := download_file_eq_skip remote fs fi rid title hx
    refine ⟨⟨fun _ => (existsWithSize_iff fs _ _).mp hx, fun _ => by rw [hdf]⟩,
      fun _ => by rw [hdf]; exact ⟨rfl, rfl⟩, ?_⟩
    intro c hc hne
    obtain ⟨c', hc', hlen⟩ := (existsWithSize_iff fs _ _).mp hx
    have h2 : c = c' := by
      have h3 := hc.symm.trans hc'
      injection h3
    subst h2
    exact absurd hlen hne
  · have hxf : existsWithSize fs (mkPath rid title fi.key) (fi.size.getD 0) =
        false := Bool.eq_false_iff.mpr hx
    cases hr : remote fi.link with
    | ok cg =>
      have hdf : download_file remote fs fi rid title =
          ⟨true, fun p => if p = mkPath rid title fi.key then some cg else fs p,
           1⟩ := by
        simp only [download_file]
        rw [if_neg hx, hr]
      refine ⟨⟨fun h => absurd (by rw [hdf] at h; exact h) one_ne_zero, ?_⟩,
        fun h => absurd (by rw [hdf] at h; exact h) one_ne_zero, ?_⟩
      · intro hex
        have h4 := (existsWithSize_iff fs _ _).mpr hex
        rw [hxf] at h4
        exact absurd h4 (by simp)
      · intro c hc hne
        refine ⟨by rw [hdf], ?_⟩
        intro c2 hr2
        injection hr2 with h5
        subst h5
        rw [hdf]
        simp
    | error e =>
      have hdf : download_file remote fs fi rid title = ⟨false, fs, 1⟩ := by
        simp only [download_file]
        rw [if_neg hx, hr]
      refine ⟨⟨fun h => absurd (by rw [hdf] at h; exact h) one_ne_zero, ?_⟩,
        fun h => absurd (by rw [hdf] at h; exact h) one_ne_zero, ?_⟩
      · intro hex
        have h4 := (existsWithSize_iff fs _ _).mpr hex
        rw [hxf] at h4
        exact absurd h4 (by simp)
      · intro c hc hne
        refine ⟨by rw [hdf], ?_⟩
        intro c2 hr2
        exact Except.noConfusion hr2

/-- Witness for C3 at a concrete input: a 1-byte local file whose record
reports 3 bytes is re-downloaded (one request) and overwritten with the
3-byte remote body. -/
theorem c3_skip_iff_size_matches_witness :
    (download_file remoteB fsSmallB fiMismatch 7 "T").requests = 1 ∧
      (download_file remoteB fsSmallB fiMismatch 7 "T").fs
        (mkPath 7 "T" fiMismatch.key) = some [1, 2, 3] := by
  have h := (c3_skip_iff_size_matches remoteB fsSmallB fiMismatch 7 "T").2.2
    [1] (by rfl) (by decide)
  exact ⟨h.1, h.2 [1, 2, 3] rfl⟩

/-- C10: a file whose remote metadata lacks a size is treated as having
size 0; with a zero-byte file already at the target path, the mirror skips
it with no network call and reports success. -/
theorem c10_missing_size_skips (remote : String → Except String Content)
    (fs : FS) (fi : FileInfo) (rid : Nat) (title : String)
    (hsz : fi.size = none) (hfs : fs (mkPath rid title fi.key) = some []) :
    download_file remote fs fi rid title = ⟨true, fs, 0⟩ := by
  have hx : existsWithSize fs (mkPath rid title fi.key) (fi.size.getD 0) =
      true := by
    rw [hsz]
    simp [existsWithSize, hfs]
  exact download_file_eq_skip remote fs fi rid title hx

/-- Witness for C10: the size-less file `fiNoSize` over a filesystem holding
an empty file at its path. -/
theorem c10_missing_size_skips_witness :
    fiNoSize.size = none ∧
      fsZeroX (mkPath 3 "T" fiNoSize.key) = some [] ∧
      download_file remoteDown fsZeroX fiNoSize 3 "T" = ⟨true, fsZeroX, 0⟩ :=
  ⟨rfl, rfl, c10_missing_size_skips remoteDown fsZeroX fiNoSize 3 "T" rfl rfl⟩

/-- Characters surviving `rstripChars` come from the original list. -/
theorem mem_rstripChars {x : Char} {l : List Char} (h : x ∈ rstripChars l) :
    x ∈ l := by
  unfold rstripChars at h
  rw [List.mem_reverse] at h
  have h2 : x ∈ l.reverse :=
    List.Sublist.subset (List.dropWhile_sublist _) h
  rwa [List.mem_reverse] at h2

/-- Counterexample for C8: the directory name is not obtained by stripping
disallowed characters and then truncating, because the source additionally
strips trailing whitespace (`rstrip()`): on the title consisting of a letter
followed by a space the two recipes disagree. -/
theorem c8_counterexample : titleDirName "a " ≠ specTitleDirName "a " := by
  decide

/-- C8 (amended): every character of the sanitized directory name is an
alphanumeric, space, hyphen or underscore; the name is at most 100
characters long; and it is produced by stripping every other character, then
removing trailing whitespace, then truncating to 100 characters. -/
theorem c8_sanitized_dirname (title : String) :
    (titleDirName title).toList.all allowedChar = true ∧
      (titleDirName title).length ≤ 100 ∧
      titleDirName title =
        String.mk ((rstripChars (title.toList.filter allowedChar)).take 100) := by
  refine ⟨?_, ?_, rfl⟩
  · rw [List.all_eq_true]
    intro x hx
    have hx1 : x ∈ (safeTitle title).toList :=
      List.mem_of_mem_take hx
    have hx2 : x ∈ title.toList.filter allowedChar := mem_rstripChars hx1
    exact (List.mem_filter.mp hx2).2
  · have h : (titleDirName title).length =
        ((safeTitle title).toList.take 100).length := rfl
    rw [h, List.length_take]
    omega

/-- C9: the metadata exporter writes, at the fixed index path, exactly the
in-order projection of every record to id, title, description, creators,
publication date, DOI and `{filename, size}` pairs, regardless of what was
stored there before (full overwrite); it changes no other path; and the
projection is invariant under changing the files' download URLs (they are
omitted). -/
theorem c9_metadata_export (records : List Record)
    (store : String → Option (List RecordMeta)) :
    save_metadata records store metadataPath =
        some (records.map projectRecord) ∧
      (∀ p, p = metadataPath ∨ save_metadata records store p = store p) ∧
      (∀ g r, projectRecord (setLinks g r) = projectRecord r) := by
  refine ⟨by simp [save_metadata], ?_, ?_⟩
  · intro p
    by_cases hp : p = metadataPath
    · exact Or.inl hp
    · exact Or.inr (by simp [save_metadata, hp])
  · intro g r
    simp [projectRecord, setLinks, List.map_map, Function.comp]

/-- Witness for C5, matching the spec scenario: page 1 returns 50 of a
reported 120 records, page 2 answers status 500, and the enumerator returns
the 50 records from page 1. -/
theorem c5_error_returns_partial_witness :
    1 * 50 ≤ (mkRecs 50).length ∧ 1 * 50 < 120 ∧
      getRecordsLoop false 50 (failAfter (mkRecs 50) 120 1) 2 1 [] =
        some (Except.ok ((mkRecs 50).take (1 * 50))) :=
  ⟨by decide, by decide,
   c5_error_returns_partial (mkRecs 50) 50 120 1 (by decide) (by decide)
     (by decide)⟩

/-- The success count of a record's mirror pass grows by at most one per
file. -/
theorem mirrorFiles_cnt_le (remote : String → Except String Content)
    (rid : Nat) (title : String) :
    ∀ (files : List FileInfo) (a : Nat) (fs0 : FS) (q : Nat),
      (mirrorFiles remote rid title files ⟨a, fs0, q⟩).cnt ≤ a + files.length := by
  intro files
  induction files with
  | nil => intro a fs0 q; simp [mirrorFiles]
  | cons f rest ih =>
    intro a fs0 q
    simp only [mirrorFiles]
    refine le_trans (ih _ _ _) ?_
    simp only [List.length_cons]
    split <;> omega

/-- A record's mirror pass leaves every path that is no file's target path
unchanged. -/
theorem mirrorFiles_fs_apply_ne (remote : String → Except String Content)
    (rid : Nat) (title : String) :
    ∀ (files : List FileInfo) (a : Nat) (fs0 : FS) (q : Nat) (p : String),
      (∀ fi ∈ files, p ≠ mkPath rid title fi.key) →
      (mirrorFiles remote rid title files ⟨a, fs0, q⟩).fs p = fs0 p := by
  intro files
  induction files with
  | nil => intro a fs0 q p _; rfl
  | cons f rest ih =>
    intro a fs0 q p hp
    simp only [mirrorFiles]
    rw [ih _ _ _ p (fun fj hj => hp fj (List.mem_cons_of_mem f hj))]
    exact download_file_fs_apply_ne remote fs0 f rid title p
      (hp f (List.mem_cons_self f rest))

/-- A successful `download_file` leaves the target path holding content of
exactly the reported size, provided the remote delivers bodies of the
reported size. -/
theorem download_file_ok_good (remote : String → Except String Content)
    (fs : FS) (fi : FileInfo) (rid : Nat) (title : String)
    (hcons : ∀ c, remote fi.link = Except.ok c → c.length = fi.size.getD 0)
    (hok : (download_file remote fs fi rid title).ok = true) :
    existsWithSize (download_file remote fs fi rid title).fs
      (mkPath rid title fi.key) (fi.size.getD 0) = true := by
  by_cases hx : existsWithSize fs (mkPath rid title fi.key) (fi.size.getD 0) = true
  · rw [download_file_eq_skip remote fs fi rid title hx]
    exact hx
  · simp only [download_file] at hok ⊢
    rw [if_neg hx] at hok ⊢
    cases hr : remote fi.link with
    | ok c =>
      simp [existsWithSize]
      exact hcons c hr
    | error e =>
      rw [hr] at hok
      simp at hok

/-- After a first mirror pass in which every file succeeded, over a
size-consistent remote and with pairwise-distinct target paths, every file's
target path holds content of the reported size. -/
theorem mirrorFiles_all_good (remote : String → Except String Content)
    (rid : Nat) (title : String) :
    ∀ (files : List FileInfo) (a : Nat) (fs0 : FS) (q : Nat),
      (∀ fi ∈ files, ∀ c, remote fi.link = Except.ok c →
        c.length = fi.size.getD 0) →
      (files.map fun fi => mkPath rid title fi.key).Nodup →
      (mirrorFiles remote rid title files ⟨a, fs0, q⟩).cnt = a + files.length →
      ∀ fi ∈ files,
        existsWithSize (mirrorFiles remote rid title files ⟨a, fs0, q⟩).fs
          (mkPath rid title fi.key) (fi.size.getD 0) = true := by
  intro files
  induction files with
  | nil =>
    intro a fs0 q _ _ _ fi hfi
    exact absurd hfi (List.not_mem_nil fi)
  | cons f rest ih =>
    intro a fs0 q hcons hnd hcnt fi hfi
    simp only [List.map_cons, List.nodup_cons] at hnd
    simp only [mirrorFiles, List.length_cons] at hcnt ⊢
    have hok : (download_file remote fs0 f rid title).ok = true := by
      by_contra hok
      have hb : (if (download_file remote fs0 f rid title).ok = true
          then 1 else 0) = 0 := by simp [hok]
      have hle := mirrorFiles_cnt_le remote rid title rest
        (a + (if (download_file remote fs0 f rid title).ok = true then 1 else 0))
        (download_file remote fs0 f rid title).fs
        (q + (download_file remote fs0 f rid title).requests)
      rw [hb] at hle hcnt
      omega
    have hb : (if (download_file remote fs0 f rid title).ok = true
        then 1 else 0) = 1 := by simp [hok]
    rw [hb] at hcnt ⊢
    have hcnt2 : (mirrorFiles remote rid title rest
        ⟨a + 1, (download_file remote fs0 f rid title).fs,
         q + (download_file remote fs0 f rid title).requests⟩).cnt =
        (a + 1) + rest.length := by
      rw [hcnt]
      omega
    rcases List.mem_cons.mp hfi with hfe | hfr
    · subst hfe
      have hdiff : ∀ fj ∈ rest,
          mkPath rid title fi.key ≠ mkPath rid title fj.key := by
        intro fj hfj heq
        apply hnd.1
        rw [heq]
        exact List.mem_map_of_mem _ hfj
      have hgood := download_file_ok_good remote fs0 fi rid title
        (hcons fi (List.mem_cons_self fi rest)) hok
      simp only [existsWithSize] at hgood ⊢
      rw [mirrorFiles_fs_apply_ne remote rid title rest _ _ _
        (mkPath rid title fi.key) hdiff]
      exact hgood
    · exact ih (a + 1) (download_file remote fs0 f rid title).fs
        (q + (download_file remote fs0 f rid title).requests)
        (fun fj hj => hcons fj (List.mem_cons_of_mem f hj)) hnd.2 hcnt2 fi hfr

/-- When every file's target path already holds content of the reported
size, the whole mirror pass skips every file: full success count, no network
requests, filesystem unchanged. -/
theorem mirrorFiles_all_skip (remote : String → Except String Content)
    (rid : Nat) (title : String) :
    ∀ (files : List FileInfo) (a : Nat) (fs0 : FS) (q : Nat),
      (∀ fi ∈ files,
        existsWithSize fs0 (mkPath rid title fi.key) (fi.size.getD 0) = true) →
      mirrorFiles remote rid title files ⟨a, fs0, q⟩ =
        ⟨a + files.length, fs0, q⟩ := by
  intro files
  induction files with
  | nil => intro a fs0 q _; simp [mirrorFiles]
  | cons f rest ih =>
    intro a fs0 q hgood
    have hsk := download_file_eq_skip remote fs0 f rid title
      (hgood f (List.mem_cons_self f rest))
    simp only [mirrorFiles, hsk]
    simp only [List.length_cons, if_true]
    rw [ih (a + 1) fs0 (q + 0)
      (fun fj hj => hgood fj (List.mem_cons_of_mem f hj))]
    have h1 : a + 1 + rest.length = a + (rest.length + 1) := by omega
    simp [h1]

/-- Counterexample for C2: a record with one file of reported size 1 whose
remote body is empty.  The first run downloads it successfully (1 of 1
files), yet the second run finds a 0-byte local file against a reported size
of 1 and performs one more network request. -/
theorem c2_counterexample :
    recOneFile.files.length = 1 ∧
      (download_record_data remoteEmptyBody emptyFS recOneFile false).cnt = 1 ∧
      (download_record_data remoteEmptyBody
        (download_record_data remoteEmptyBody emptyFS recOneFile false).fs
        recOneFile false).req = 1 :=
  ⟨rfl, rfl, rfl⟩

/-- C2 (amended): running the file mirror step twice on the same record with
no remote changes performs zero network requests during the second run and
leaves every local file's contents unchanged, for every record whose
first-run downloads all succeeded — provided the record's files have
pairwise-distinct target paths and every body the remote delivers has
exactly the reported byte size. -/
theorem c2_mirror_idempotent (remote : String → Except String Content)
    (fs : FS) (rec : Record) (debug : Bool)
    (hcons : ∀ fi ∈ filesForRecord debug rec.files, ∀ c,
      remote fi.link = Except.ok c → c.length = fi.size.getD 0)
    (hnd : ((filesForRecord debug rec.files).map fun fi =>
      mkPath rec.id (rec.metadata.title.getD "Unknown Title") fi.key).Nodup)
    (hall : (download_record_data remote fs rec debug).cnt =
      (filesForRecord debug rec.files).length) :
    download_record_data remote (download_record_data remote fs rec debug).fs
        rec debug =
      ⟨(filesForRecord debug rec.files).length,
       (download_record_data remote fs rec debug).fs, 0⟩ := by
  have hgood := mirrorFiles_all_good remote rec.id
    (rec.metadata.title.getD "Unknown Title") (filesForRecord debug rec.files)
    0 fs 0 hcons hnd (by simpa [download_record_data] using hall)
  have h := mirrorFiles_all_skip remote rec.id
    (rec.metadata.title.getD "Unknown Title") (filesForRecord debug rec.files)
    0 (download_record_data remote fs rec debug).fs 0
    (fun fi hfi => hgood fi hfi)
  simpa [download_record_data] using h

/-- Witness for C2 (amended) at a concrete input: a record whose only file
already sits on disk with matching size; both runs skip it. -/
theorem c2_mirror_idempotent_witness :
    download_record_data remoteDown
        (download_record_data remoteDown fsWithA recSkip false).fs recSkip
        false =
      ⟨1, (download_record_data remoteDown fsWithA recSkip false).fs, 0⟩ :=
  c2_mirror_idempotent remoteDown fsWithA recSkip false
    (by intro fi hfi c hc; simp [remoteDown] at hc)
    (by decide) rfl

/-- The pagination loop only propagates an exception when a listing request
raises one: over a server that never raises, no error outcome is
reachable. -/
theorem getRecordsLoop_no_raise (debug : Bool) (size : Nat)
    (server : Nat → Nat → Except String PageResponse)
    (hsrv : ∀ p s e, server p s ≠ Except.error e) :
    ∀ fuel page acc e,
      getRecordsLoop debug size server fuel page acc ≠
        some (Except.error e) := by
  intro fuel
  induction fuel with
  | zero =>
    intro page acc e h
    simp [getRecordsLoop] at h
  | succ n ih =>
    intro page acc e h
    simp only [getRecordsLoop] at h
    split at h
    · rename_i e2 heq
      exact hsrv page size e2 heq
    · rename_i resp heq
      split at h
      · simp at h
      · split at h
        · simp at h
        · split at h
          · simp at h
          · split at h
            · simp at h
            · exact ih (page + 1) (acc ++ resp.hits) e h

/-- Counterexample for C6: an exception raised while fetching a listing page
is not caught at its own level — the source wraps only the per-file download
in a `try`, so the enumerator propagates the exception instead of converting
it to a log line and a partial result. -/
theorem c6_counterexample :
    enumRaises (get_iodp_records false raisingServer 5) = true := rfl

/-- On a remote that only fails before the output file is opened, the
streaming model and the early-failure model of the mirror step agree:
`download_file` is the early-failures-only restriction of
`download_file_stream`. -/
theorem download_file_stream_restricts
    (remote : String → Except String Content) (fs : FS) (fi : FileInfo)
    (rid : Nat) (title : String) :
    download_file_stream (fetchOfExcept remote) fs fi rid title =
      download_file remote fs fi rid title := by
  simp only [download_file_stream, download_file, fetchOfExcept]
  split
  · rfl
  · cases hr : remote fi.link <;> rfl

/-- C6 (amended): non-success listing statuses and per-file download
exceptions are caught at their own level and converted to boolean/count
signals — over a server whose listing requests never raise, the enumerator
never propagates an exception, and every per-file download exception is
caught, making `download_file_stream` return failure (an exception raised
before the output file is opened leaves the filesystem untouched, while one
raised mid-stream leaves the already-written bytes at the target path);
however, an exception raised by the listing request itself propagates
uncaught (see the counterexample). -/
theorem c6_failures_contained (server : Nat → Nat → Except String PageResponse)
    (hsrv : ∀ p s e, server p s ≠ Except.error e)
    (remote : String → FetchResult) (fs : FS) (fi : FileInfo)
    (rid : Nat) (title : String)
    (hmiss : fs (mkPath rid title fi.key) = none) :
    (∀ debug fuel e2,
      get_iodp_records debug server fuel ≠ some (Except.error e2)) ∧
      (∀ e, remote fi.link = FetchResult.early e →
        download_file_stream remote fs fi rid title = ⟨false, fs, 1⟩) ∧
      (∀ w e, remote fi.link = FetchResult.midStream w e →
        download_file_stream remote fs fi rid title =
          ⟨false,
           fun p => if p = mkPath rid title fi.key then some w else fs p,
           1⟩) := by
  have hx : ¬ existsWithSize fs (mkPath rid title fi.key)
      (fi.size.getD 0) = true := by
    simp [existsWithSize, hmiss]
  refine ⟨?_, ?_, ?_⟩
  · intro debug fuel e2
    exact getRecordsLoop_no_raise debug (if debug then 2 else 50) server hsrv
      fuel 1 [] e2
  · intro e hrem
    simp only [download_file_stream]
    rw [if_neg hx, hrem]
  · intro w e hrem
    simp only [download_file_stream]
    rw [if_neg hx, hrem]

/-- Witness for C6 (amended): the empty server never raises; an
early-raising remote yields `false` with the filesystem untouched, and a
mid-stream-raising remote yields `false` with the written chunk left at the
target path. -/
theorem c6_failures_contained_witness :
    get_iodp_records false emptyServer 2 ≠ some (Except.error "boom") ∧
      download_file_stream remoteEarly emptyFS fiNoSize 3 "T" =
        ⟨false, emptyFS, 1⟩ ∧
      download_file_stream remoteMid emptyFS fiNoSize 3 "T" =
        ⟨false,
         fun p => if p = mkPath 3 "T" fiNoSize.key then some [7] else emptyFS p,
         1⟩ := by
  have h1 := c6_failures_contained emptyServer
    (by intro p s e2; simp [emptyServer]) remoteEarly emptyFS fiNoSize 3 "T"
    rfl
  have h2 := c6_failures_contained emptyServer
    (by intro p s e2; simp [emptyServer]) remoteMid emptyFS fiNoSize 3 "T"
    rfl
  exact ⟨h1.1 false 2 "boom", h1.2.1 "ConnectionError" rfl,
    h2.2.2 [7] "ChunkedEncodingError" rfl⟩

/-- Counterexample for C7: when the enumeration finds zero records, `main`
prints a message and plainly returns — the process exit code is 0, not an
explicit non-zero exit as the claim states. -/
theorem c7_counterexample :
    runScript (some "key") emptyServer 2 false = RunOutcome.noRecords ∧
      exitCodeOf (runScript (some "key") emptyServer 2 false) = 0 :=
  ⟨rfl, rfl⟩

/-- C7 (amended): a missing (or empty) API key terminates the run with an
explicit exit code 1 before any mirroring; an enumeration that finds zero
records terminates the run early with a message before any mirroring, but
via a plain return, so the process exit code is 0. -/
theorem c7_startup_preconditions (key : Option String)
    (server : Nat → Nat → Except String PageResponse) (fuel : Nat)
    (debug : Bool) :
    (keyMissing key = true →
      runScript key server fuel debug = RunOutcome.fatalKey ∧
        exitCodeOf (runScript key server fuel debug) = 1 ∧
        ranMirror (runScript key server fuel debug) = false) ∧
    (keyMissing key = false →
      get_iodp_records debug server fuel = some (Except.ok []) →
      runScript key server fuel debug = RunOutcome.noRecords ∧
        exitCodeOf (runScript key server fuel debug) = 0 ∧
        ranMirror (runScript key server fuel debug) = false) := by
  constructor
  · intro hk
    have h : runScript key server fuel debug = RunOutcome.fatalKey := by
      simp [runScript, hk]
    exact ⟨h, by rw [h]; rfl, by rw [h]; rfl⟩
  · intro hk hrec
    have h : runScript key server fuel debug = RunOutcome.noRecords := by
      simp [runScript, hk, hrec]
    exact ⟨h, by rw [h]; rfl, by rw [h]; rfl⟩

/-- Witness for C7 (amended): an absent key exits with code 1; a present key
with an empty listing ends in the zero-exit-code early return. -/
theorem c7_startup_preconditions_witness :
    (runScript none emptyServer 2 false = RunOutcome.fatalKey ∧
      exitCodeOf (runScript none emptyServer 2 false) = 1 ∧
      ranMirror (runScript none emptyServer 2 false) = false) ∧
    (runScript (some "key") emptyServer 2 false = RunOutcome.noRecords ∧
      exitCodeOf (runScript (some "key") emptyServer 2 false) = 0 ∧
      ranMirror (runScript (some "key") emptyServer 2 false) = false) :=
  ⟨(c7_startup_preconditions none emptyServer 2 false).1 rfl,
   (c7_startup_preconditions (some "key") emptyServer 2 false).2 rfl rfl⟩

end IodpDownloader
